import Mathlib

/-!
Verification of the oil-notifier repository (src/check_oil_level.py) against
its natural-language specification.  The Python source is shallowly embedded:
strings become lists of characters, images become lists of rows of 8-bit RGB
pixel triples, and fallible operations return Except.  The glare-reduction
pass exists in two renderings: an exact-real idealization over the rationals
(reduce_glare, with the constants 0.7, 0.85, 0.15 as the rationals they
denote), adequate for the monotonicity and range bounds, which are
insensitive to rounding because every factor is at most one; and a
value-exact model of the float arithmetic the code actually performs
(reduce_glare32), in which every multiplication, addition and division
rounds to nearest, ties to even, at the 24-bit (float32) or 53-bit (float64)
significand the numpy and Python operations use.  The two renderings differ
on real inputs: the float32 rounding can land just below an integer that the
exact arithmetic hits, and the uint8 truncation then drops the value by one.
-/

namespace OilNotifier

/-! ## Percentage extractor (check_oil_level.py, parse_percentage, lines 195-212)

The Python code applies re.search with two patterns, in order:

  pattern 1:  Percentage:\s*(\d+)(?:-(\d+))?%
  pattern 2:  (\d+)(?:-(\d+))%

re.search scans start positions left to right and backtracks greedily inside a
position.  The embedding below implements exactly that: a token list per
pattern, greedy candidate lists (longest split first) for the starred and
plus-ed character classes, and explicit backtracking via findSome?.  Character
classes are modelled on their ASCII part (the inputs of interest are ASCII). -/

/-- Whitespace class of the regex escape backslash-s, ASCII part. -/
def isSpaceChar (c : Char) : Bool :=
  c = ' ' || c = '\t' || c = '\n' || c = '\x0b' || c = '\x0c' || c = '\r'

/-- Capture groups of a match: group 1 and group 2 of the two patterns. -/
structure Captures where
  g1 : Option (List Char)
  g2 : Option (List Char)
deriving DecidableEq, Repr

/-- Tokens covering exactly the regex constructs the two patterns use. -/
inductive Tok where
  /-- a literal character sequence -/
  | lit (cs : List Char)
  /-- greedy whitespace star: backslash-s star -/
  | ws
  /-- capture group 1, one or more digits, greedy -/
  | digits1
  /-- the optional range suffix: a dash then capture group 2 of digits -/
  | rangeOpt
  /-- the mandatory range suffix: a dash then capture group 2 of digits -/
  | rangeReq

/-- All ways to split s into a prefix satisfying p and a remainder, longest
prefix first: the greedy backtracking order of a starred character class. -/
def splitsDesc (p : Char → Bool) (s : List Char) : List (List Char × List Char) :=
  let r := s.takeWhile p
  let rest := s.drop r.length
  (List.range (r.length + 1)).reverse.map (fun k => (r.take k, r.drop k ++ rest))

/-- Greedy candidates for one-or-more digits: nonempty digit prefixes, longest
first. -/
def digitSplits (s : List Char) : List (List Char × List Char) :=
  (splitsDesc Char.isDigit s).filter (fun pr => !pr.1.isEmpty)

/-- Match a token list at the beginning of s, with backtracking in the greedy
order of the Python regex engine; on success return the captures. -/
def matchToks : List Tok → List Char → Captures → Option Captures
  | [], _, caps => some caps
  | .lit cs :: ts, s, caps =>
      if cs.isPrefixOf s then matchToks ts (s.drop cs.length) caps else none
  | .ws :: ts, s, caps =>
      (splitsDesc isSpaceChar s).findSome? (fun pr => matchToks ts pr.2 caps)
  | .digits1 :: ts, s, caps =>
      (digitSplits s).findSome? (fun pr => matchToks ts pr.2 { caps with g1 := some pr.1 })
  | .rangeReq :: ts, s, caps =>
      match s with
      | '-' :: s2 => (digitSplits s2).findSome? (fun pr => matchToks ts pr.2 { caps with g2 := some pr.1 })
      | _ => none
  | .rangeOpt :: ts, s, caps =>
      (match s with
       | '-' :: s2 => (digitSplits s2).findSome? (fun pr => matchToks ts pr.2 { caps with g2 := some pr.1 })
       | _ => none) <|>
      matchToks ts s caps

/-- The semantics of re.search: try a full match at each start position, left
to right, and return the captures of the first position that matches. -/
def reSearch (pat : List Tok) : List Char → Option Captures
  | [] => matchToks pat [] ⟨none, none⟩
  | c :: s => matchToks pat (c :: s) ⟨none, none⟩ <|> reSearch pat s

/-- First pattern of parse_percentage:  Percentage:\s*(\d+)(?:-(\d+))?%  . -/
def pat1 : List Tok :=
  [.lit ("Percentage:".data), .ws, .digits1, .rangeOpt, .lit ['%']]

/-- Second pattern of parse_percentage:  (\d+)(?:-(\d+))%  (note: the range
part carries no question mark in the source, so it is mandatory here). -/
def pat2 : List Tok :=
  [.digits1, .rangeReq, .lit ['%']]

/-- The ordered pattern list of parse_percentage. -/
def patterns : List (List Tok) := [pat1, pat2]

/-- Value of a digit string, as Python int() computes it on a digit run. -/
def digitsToNat (cs : List Char) : Nat :=
  cs.foldl (fun a c => 10 * a + (c.toNat - 48)) 0

/-- Python int() applied to a captured digit group, as an integer. -/
def pyInt (cs : List Char) : Int := (digitsToNat cs : Int)

/-- Truthiness of match.group(2) in Python: None and the empty string are
falsy, any nonempty captured string is truthy. -/
def groupTruthy (g : Option (List Char)) : Bool :=
  match g with
  | some d => !d.isEmpty
  | none => false

/-- The value parse_percentage returns from a successful match: the second
captured group when it is present (a range), otherwise the first. -/
def extractCaps (caps : Captures) : Int :=
  if groupTruthy caps.g2 then pyInt (caps.g2.getD []) else pyInt (caps.g1.getD [])

/-- parse_percentage (lines 195-212): try the patterns in order; on the first
pattern whose search succeeds, return the extracted number; otherwise None. -/
def parse_percentage (text : List Char) : Option Int :=
  patterns.findSome? (fun pat => (reSearch pat text).map extractCaps)

/-! ### Concrete inputs used by the extractor claims -/

/-- Example text with a labelled range. -/
def exRange : List Char := "Percentage: 30-35%".data

/-- Example text with a labelled single number. -/
def exSingle : List Char := "Percentage: 35%".data

/-- Example text where the bare pattern would match earlier in the text than
the labelled pattern. -/
def exPriority : List Char := "5-7% and Percentage: 30-35%".data

/-- Example text with two occurrences of the labelled pattern. -/
def exLeftmost : List Char := "Percentage: 30-35% Percentage: 90%".data

/-- The spec example for the bare pattern: a plain number with a percent sign,
no label, no range. -/
def exBare42 : List Char := "roughly 42% full".data

/-- Example text whose number exceeds 100. -/
def exOver : List Char := "Percentage: 250%".data

/-- Example text with a descending range. -/
def exRangeDesc : List Char := "Percentage: 50-10%".data

/-- Example text with a bare descending range and no label, matched by the
second pattern only. -/
def exBareDesc : List Char := "level 50-10% today".data

/-- Example text with no numeric pattern at all. -/
def exNoNum : List Char := "no numeric data here".data

/-! ### Helper lemmas about parse_percentage -/

/-- When the first pattern matches, parse_percentage returns the value
extracted from that match (the second pattern is never consulted). -/
lemma parse_of_pat1 (s : List Char) (caps : Captures)
    (h : reSearch pat1 s = some caps) :
    parse_percentage s = some (extractCaps caps) := by
  simp [parse_percentage, patterns, List.findSome?, h]

/-- When the first pattern does not match anywhere, parse_percentage is the
extraction of the search result of the second pattern. -/
lemma parse_of_pat1_none (s : List Char) (h : reSearch pat1 s = none) :
    parse_percentage s = (reSearch pat2 s).map extractCaps := by
  cases h2 : reSearch pat2 s <;>
    simp [parse_percentage, patterns, List.findSome?, h, h2]

/-- The extracted value of any match is a natural number cast to an integer,
hence nonnegative. -/
lemma extractCaps_nonneg (caps : Captures) : 0 ≤ extractCaps caps := by
  unfold extractCaps pyInt
  split <;> exact Int.natCast_nonneg _

/-- Every number parse_percentage returns is nonnegative. -/
lemma parse_nonneg (s : List Char) (n : Int)
    (h : parse_percentage s = some n) : 0 ≤ n := by
  cases h1 : reSearch pat1 s with
  | some caps =>
      rw [parse_of_pat1 s caps h1] at h
      simp only [Option.some.injEq] at h
      exact h ▸ extractCaps_nonneg caps
  | none =>
      rw [parse_of_pat1_none s h1] at h
      cases h2 : reSearch pat2 s with
      | some caps =>
          rw [h2] at h
          simp only [Option.map_some', Option.some.injEq] at h
          exact h ▸ extractCaps_nonneg caps
      | none => rw [h2] at h; simp at h

/-- parse_percentage returns none exactly when neither pattern matches. -/
lemma parse_none_iff (s : List Char) :
    parse_percentage s = none ↔ reSearch pat1 s = none ∧ reSearch pat2 s = none := by
  cases h1 : reSearch pat1 s with
  | some caps => rw [parse_of_pat1 s caps h1]; simp [h1]
  | none =>
      rw [parse_of_pat1_none s h1]
      simp [h1, Option.map_eq_none']

/-! ### Claim theorems for the extractor -/

/-- C1: for every input string, extractPercentage returns the number
determined by the first match of the first pattern in the ordered pattern
list (the labelled pattern is tried before the bare one); a two-group match
returns the second number, a one-group match the first, later occurrences
are ignored; in particular the labelled range 30-35 gives 35 and the
labelled single 35 gives 35. -/
theorem C1_first_pattern_first_match :
    (∀ s caps, reSearch pat1 s = some caps →
        parse_percentage s = some (extractCaps caps)) ∧
    (∀ s, reSearch pat1 s = none →
        parse_percentage s = (reSearch pat2 s).map extractCaps) ∧
    parse_percentage exRange = some 35 ∧
    parse_percentage exSingle = some 35 ∧
    parse_percentage exPriority = some 35 ∧
    parse_percentage exLeftmost = some 35 :=
  ⟨parse_of_pat1, parse_of_pat1_none, by decide, by decide, by decide, by decide⟩

/-- C1 witness: the generic part applied to the concrete labelled range. -/
theorem C1_first_pattern_first_match_witness :
    reSearch pat1 exRange = some ⟨some ['3', '0'], some ['3', '5']⟩ ∧
    parse_percentage exRange = some (extractCaps ⟨some ['3', '0'], some ['3', '5']⟩) :=
  ⟨by decide,
   C1_first_pattern_first_match.1 exRange ⟨some ['3', '0'], some ['3', '5']⟩ (by decide)⟩

/-- C2: the code behaviour at the failing input of the claim.  The second
pattern in the source is (backslash-d+)(?:-(backslash-d+))% with no question
mark on the range part, so a bare number followed by a percent sign does not
match it, and the extractor returns none instead of the 42 the claim (and
the source comment on line 200, quote: "30-35%" or "35%") promises. -/
theorem C2_bare_number_does_not_match : parse_percentage exBare42 = none := by
  decide

/-- C7 counterexample: on the input Percentage: 250% the extractor returns
250, which is outside the interval [0, 100] the claim promises. -/
theorem C7_counterexample_over_100 :
    parse_percentage exOver = some 250 ∧ ¬ ((250 : Int) ≤ 100) :=
  ⟨by decide, by decide⟩

/-- C7 amended: for every input string, extractPercentage either returns
absent or a nonnegative integer (not necessarily at most 100); it never
raises (it is a total function) and it returns absent, never zero, exactly
when no pattern matches. -/
theorem C7_nonneg_or_absent (s : List Char) :
    (∀ n : Int, parse_percentage s = some n → 0 ≤ n) ∧
    (parse_percentage s = none ↔ reSearch pat1 s = none ∧ reSearch pat2 s = none) :=
  ⟨parse_nonneg s, parse_none_iff s⟩

/-- C7 witness: the amended theorem applied to the over-100 example and to a
text with no numeric pattern. -/
theorem C7_nonneg_or_absent_witness :
    (0 : Int) ≤ 250 ∧ parse_percentage exNoNum = none :=
  ⟨(C7_nonneg_or_absent exOver).1 250 (by decide),
   (C7_nonneg_or_absent exNoNum).2.mpr (by decide)⟩

/-- C10: whenever a match captures a range (a truthy second group), under
either of the two patterns, the extractor returns the digits of the second
captured group, even when that number is smaller than the first (50-10 gives
10, not the maximum 50, both labelled and bare), and every returned value is
nonnegative.  The two generic clauses cover every match the extractor can
take: one for a first-pattern match, one for a second-pattern match reached
when the first pattern matches nowhere. -/
theorem C10_second_group_even_if_smaller :
    parse_percentage exRangeDesc = some 10 ∧
    parse_percentage exRangeDesc ≠ some 50 ∧
    parse_percentage exBareDesc = some 10 ∧
    parse_percentage exBareDesc ≠ some 50 ∧
    (∀ s caps, reSearch pat1 s = some caps → groupTruthy caps.g2 = true →
        parse_percentage s = some (pyInt (caps.g2.getD []))) ∧
    (∀ s caps, reSearch pat1 s = none → reSearch pat2 s = some caps →
        groupTruthy caps.g2 = true →
        parse_percentage s = some (pyInt (caps.g2.getD []))) ∧
    (∀ s n, parse_percentage s = some n → 0 ≤ n) :=
  ⟨by decide, by decide, by decide, by decide,
   fun s caps h ht => by rw [parse_of_pat1 s caps h]; simp [extractCaps, ht],
   fun s caps h1 h2 ht => by
     rw [parse_of_pat1_none s h1, h2]
     simp [extractCaps, ht],
   parse_nonneg⟩

/-- C10 witness: the generic parts applied to the labelled and to the bare
descending range examples. -/
theorem C10_second_group_even_if_smaller_witness :
    (reSearch pat1 exRangeDesc = some ⟨some ['5', '0'], some ['1', '0']⟩ ∧
      parse_percentage exRangeDesc = some (pyInt ['1', '0'])) ∧
    (reSearch pat1 exBareDesc = none ∧
      reSearch pat2 exBareDesc = some ⟨some ['5', '0'], some ['1', '0']⟩ ∧
      parse_percentage exBareDesc = some (pyInt ['1', '0'])) :=
  ⟨⟨by decide,
    C10_second_group_even_if_smaller.2.2.2.2.1 exRangeDesc
      ⟨some ['5', '0'], some ['1', '0']⟩ (by decide) (by decide)⟩,
   ⟨by decide, by decide,
    C10_second_group_even_if_smaller.2.2.2.2.2.1 exBareDesc
      ⟨some ['5', '0'], some ['1', '0']⟩ (by decide) (by decide) (by decide)⟩⟩

/-! ## Image model

An image is a list of rows of 8-bit RGB pixels (the numpy array of the
source, axis order y, x, channel).  This section renders reduce_glare in
exact real arithmetic over the rationals: the idealized per-pixel function
whose constants are the rationals the source literals denote.  The
value-exact float model of the same lines follows in a later section.
np.clip followed by astype(np.uint8) becomes a clamp to [0, 255] followed
by the floor (astype truncates toward zero and the clamped values are
nonnegative). -/

/-- An 8-bit RGB pixel: the three channel values. -/
abbrev Pixel := Nat × Nat × Nat

/-- A pixel during the float passes of reduce_glare, with exact rationals in
place of float32. -/
abbrev QPixel := ℚ × ℚ × ℚ

/-- An image: rows of pixels, row 0 at the top. -/
structure Image where
  rows : List (List Pixel)
deriving DecidableEq, Repr

/-- Conversion of a stored pixel to the working rationals (the
np.array(img, dtype=np.float32) step). -/
def toQ (p : Pixel) : QPixel := ((p.1 : ℚ), (p.2.1 : ℚ), (p.2.2 : ℚ))

/-- Mean of the three channels, np.mean(img_array, axis=2). -/
def pixelMean (q : QPixel) : ℚ := (q.1 + q.2.1 + q.2.2) / 3

/-- The glare mask of line 118: channel mean strictly above 220. -/
def brightMask (q : QPixel) : Bool := decide (pixelMean q > 220)

/-- Multiply every channel of a pixel by a factor (the numpy broadcasts of
lines 123 and 134). -/
def scaleQ (f : ℚ) (q : QPixel) : QPixel := (q.1 * f, q.2.1 * f, q.2.2 * f)

/-- The glare pass on one pixel, lines 122-125: scale by 0.7 where the mask
holds, leave the pixel unchanged otherwise. -/
def glarePass (mask : Bool) (q : QPixel) : QPixel :=
  if mask then scaleQ (7 / 10) q else q

/-- Height of the top band, line 129: int(height * 0.4).  For every natural
height the float computation int(h * 0.4) equals the floor of 2 h / 5. -/
def topPortion (h : Nat) : Nat := 2 * h / 5

/-- Row darkening factor of line 133: 0.85 + 0.15 * y / top_portion. -/
def darkenFactor (top y : Nat) : ℚ := 17 / 20 + 3 / 20 * (y : ℚ) / (top : ℚ)

/-- Clamp to [0, 255] and truncate to an 8-bit integer, line 137. -/
def u8clip (x : ℚ) : Nat := (⌊max 0 (min 255 x)⌋).toNat

/-- Clamp and truncate all three channels of a pixel. -/
def clipPixel (q : QPixel) : Pixel := (u8clip q.1, u8clip q.2.1, u8clip q.2.2)

/-- The gradient loop of lines 131-134: rows with index below top are scaled
by their darkening factor, later rows pass through unchanged.  The index
argument is the row index y of the current head. -/
def gradLoop (top : Nat) : Nat → List (List QPixel) → List (List QPixel)
  | _, [] => []
  | y, row :: rest =>
      (if y < top then row.map (scaleQ (darkenFactor top y)) else row) ::
        gradLoop top (y + 1) rest

/-- reduce_glare (lines 110-139) in exact real arithmetic: convert to
rationals, apply the glare pass with the mask computed from the original
values, apply the gradient darkening to the top rows, then clamp and
truncate every channel.  This is the idealization the C4 claim describes;
the float-accurate rendering of the same lines is reduce_glare32 below,
and the two differ at realizable inputs. -/
def reduce_glare (img : Image) : Image :=
  let arr := img.rows.map (fun row => row.map toQ)
  let arr1 := arr.map (fun row => row.map (fun q => glarePass (brightMask q) q))
  let h := arr.length
  let arr2 := gradLoop (topPortion h) 0 arr1
  ⟨arr2.map (fun row => row.map clipPixel)⟩

/-- Modelled from the claim wording of C4: the per-pixel function reduceGlare
is claimed to compute on the pixel at row y of an image whose top band has
the given height: glare pixels are scaled by 0.7, pixels in the top band are
additionally scaled by the row gradient factor, and the result is clamped to
[0, 255] and truncated. -/
def specPixel (top y : Nat) (p : Pixel) : Pixel :=
  let q := toQ p
  let q1 := if brightMask q then scaleQ (7 / 10) q else q
  let q2 := if y < top then scaleQ (darkenFactor top y) q1 else q1
  clipPixel q2

/-- Modelled from the claim wording of C4: the whole image under the claimed
per-pixel function, rows indexed from the given starting row index. -/
def specRows (top : Nat) : Nat → List (List Pixel) → List (List Pixel)
  | _, [] => []
  | y, row :: rest => row.map (specPixel top y) :: specRows top (y + 1) rest

/-- Row y of an image, or the empty row outside the image. -/
def rowAt (img : Image) (y : Nat) : List Pixel := (img.rows.get? y).getD []

/-- Pixel (y, x) of an image, or black outside the image. -/
def pixAt (img : Image) (y x : Nat) : Pixel := ((rowAt img y).get? x).getD (0, 0, 0)

/-- An 8-bit image: every channel of every pixel is at most 255. -/
def WellFormedImage (img : Image) : Prop :=
  ∀ row ∈ img.rows, ∀ p ∈ row, p.1 ≤ 255 ∧ p.2.1 ≤ 255 ∧ p.2.2 ≤ 255

instance (img : Image) : Decidable (WellFormedImage img) := by
  unfold WellFormedImage; infer_instance

/-! ### The staged passes of reduce_glare fuse into the per-pixel function -/

/-- One row of the fused passes equals the row of per-pixel results. -/
lemma row_fusion (top y : Nat) (row : List Pixel) :
    ((if y < top
        then ((row.map toQ).map (fun q => glarePass (brightMask q) q)).map
          (fun q => scaleQ (darkenFactor top y) q)
        else (row.map toQ).map (fun q => glarePass (brightMask q) q)).map clipPixel)
      = row.map (specPixel top y) := by
  by_cases hy : y < top
  · rw [if_pos hy]
    simp only [List.map_map]
    apply List.map_congr_left
    intro p _
    simp [Function.comp, specPixel, glarePass, hy]
  · rw [if_neg hy]
    simp only [List.map_map]
    apply List.map_congr_left
    intro p _
    simp [Function.comp, specPixel, glarePass, hy]

/-- Fusion of the three staged passes of reduce_glare into one map of the
per-pixel function, for an arbitrary starting row index. -/
lemma gradLoop_spec (top : Nat) (rows : List (List Pixel)) : ∀ y : Nat,
    (gradLoop top y
        ((rows.map (fun row => row.map toQ)).map
          (fun row => row.map (fun q => glarePass (brightMask q) q)))).map
      (fun row => row.map clipPixel) = specRows top y rows := by
  induction rows with
  | nil => intro y; rfl
  | cons row rest ih =>
      intro y
      simp only [List.map_cons, gradLoop, specRows]
      exact congrArg₂ List.cons (row_fusion top y row) (ih (y + 1))

/-- reduce_glare is exactly the map of the per-pixel function over the rows
of the image, with the top band determined by the image height. -/
lemma reduce_glare_eq (img : Image) :
    reduce_glare img = ⟨specRows (topPortion img.rows.length) 0 img.rows⟩ := by
  unfold reduce_glare
  simp only [List.length_map]
  exact congrArg Image.mk (gradLoop_spec (topPortion img.rows.length) img.rows 0)

/-- specRows preserves the number of rows. -/
lemma specRows_length (top : Nat) (rows : List (List Pixel)) : ∀ y : Nat,
    (specRows top y rows).length = rows.length := by
  induction rows with
  | nil => intro y; rfl
  | cons row rest ih => intro y; simp [specRows, ih (y + 1)]

/-- Row i of specRows is the image row i mapped through the per-pixel
function at row index y0 + i. -/
lemma specRows_get? (top : Nat) (rows : List (List Pixel)) : ∀ (y0 i : Nat),
    (specRows top y0 rows).get? i =
      (rows.get? i).map (fun r => r.map (specPixel top (y0 + i))) := by
  induction rows with
  | nil => intro y0 i; simp [specRows]
  | cons row rest ih =>
      intro y0 i
      cases i with
      | zero => simp [specRows]
      | succ j =>
          simp only [specRows, List.get?_cons_succ]
          rw [ih (y0 + 1) j]
          have hadd : y0 + 1 + j = y0 + (j + 1) := by omega
          rw [hadd]

/-! ### Per-pixel bounds -/

/-- The clamp-and-truncate of a value that is at most a natural number v is
at most v. -/
lemma u8clip_le_of_le (v : Nat) (x : ℚ) (hx : x ≤ (v : ℚ)) : u8clip x ≤ v := by
  unfold u8clip
  have h1 : max 0 (min 255 x) ≤ (v : ℚ) := by
    apply max_le
    · exact_mod_cast Nat.zero_le v
    · exact le_trans (min_le_right _ _) hx
  have h2 : ⌊max 0 (min 255 x)⌋ ≤ (v : ℤ) := by
    calc ⌊max 0 (min 255 x)⌋ ≤ ⌊(v : ℚ)⌋ := Int.floor_le_floor h1
    _ = (v : ℤ) := Int.floor_natCast v
  omega

/-- Clamp-and-truncate never exceeds 255. -/
lemma u8clip_le_255 (x : ℚ) : u8clip x ≤ 255 := by
  unfold u8clip
  have h1 : max 0 (min 255 x) ≤ (255 : ℚ) :=
    max_le (by norm_num) (min_le_left _ _)
  have h2 : ⌊max 0 (min 255 x)⌋ ≤ (255 : ℤ) := by
    calc ⌊max 0 (min 255 x)⌋ ≤ ⌊(255 : ℚ)⌋ := Int.floor_le_floor h1
    _ = (255 : ℤ) := by norm_num
  omega

/-- The darkening factor is nonnegative. -/
lemma darkenFactor_nonneg (top y : Nat) : 0 ≤ darkenFactor top y := by
  unfold darkenFactor
  positivity

/-- Inside the top band the darkening factor is at most one. -/
lemma darkenFactor_le_one (top y : Nat) (h : y < top) : darkenFactor top y ≤ 1 := by
  unfold darkenFactor
  have htop : (0 : ℚ) < (top : ℚ) := by
    exact_mod_cast lt_of_le_of_lt (Nat.zero_le y) h
  have hy : (y : ℚ) / (top : ℚ) ≤ 1 := by
    rw [div_le_one htop]
    exact_mod_cast Nat.le_of_lt h
  have h2 : 3 / 20 * ((y : ℚ) / (top : ℚ)) ≤ 3 / 20 * 1 :=
    mul_le_mul_of_nonneg_left hy (by norm_num)
  rw [mul_div_assoc]
  linarith

/-- A channel value scaled by a factor from [0, 1] and clamped and truncated
never exceeds the original 8-bit value. -/
lemma chan_le_one (v : Nat) (a : ℚ) (ha1 : a ≤ 1) :
    u8clip ((v : ℚ) * a) ≤ v :=
  u8clip_le_of_le v _ (mul_le_of_le_one_right (Nat.cast_nonneg v) ha1)

/-- A channel value scaled by two factors from [0, 1] and then clamped and
truncated never exceeds the original 8-bit value. -/
lemma chan_le_two (v : Nat) (a b : ℚ) (ha0 : 0 ≤ a) (ha1 : a ≤ 1)
    (hb1 : b ≤ 1) : u8clip ((v : ℚ) * a * b) ≤ v := by
  apply u8clip_le_of_le
  calc (v : ℚ) * a * b ≤ (v : ℚ) * a :=
        mul_le_of_le_one_right (mul_nonneg (Nat.cast_nonneg v) ha0) hb1
  _ ≤ (v : ℚ) := mul_le_of_le_one_right (Nat.cast_nonneg v) ha1

/-- An unscaled channel value clamped and truncated never exceeds itself. -/
lemma chan_le_id (v : Nat) : u8clip ((v : ℚ)) ≤ v :=
  u8clip_le_of_le v _ le_rfl

/-- Clamp-and-truncate is the identity on 8-bit integer values. -/
lemma u8clip_natCast (n : Nat) (h : n ≤ 255) : u8clip ((n : ℚ)) = n := by
  unfold u8clip
  rw [min_eq_right (by exact_mod_cast h : ((n : ℚ)) ≤ 255),
    max_eq_right (by positivity : (0 : ℚ) ≤ (n : ℚ)), Int.floor_natCast]
  exact Int.toNat_natCast n

/-- The per-pixel function never increases a channel and never produces a
channel above 255. -/
lemma specPixel_bounds (top y : Nat) (p : Pixel) :
    (specPixel top y p).1 ≤ p.1 ∧ (specPixel top y p).2.1 ≤ p.2.1 ∧
    (specPixel top y p).2.2 ≤ p.2.2 ∧ (specPixel top y p).1 ≤ 255 ∧
    (specPixel top y p).2.1 ≤ 255 ∧ (specPixel top y p).2.2 ≤ 255 := by
  obtain ⟨r, g, b⟩ := p
  by_cases hm : brightMask (toQ (r, g, b)) = true <;> by_cases hy : y < top
  · simp only [specPixel]
    rw [if_pos hy, if_pos hm]
    simp only [clipPixel, scaleQ, toQ]
    exact ⟨chan_le_two _ _ _ (by norm_num) (by norm_num)
        (darkenFactor_le_one top y hy),
      chan_le_two _ _ _ (by norm_num) (by norm_num)
        (darkenFactor_le_one top y hy),
      chan_le_two _ _ _ (by norm_num) (by norm_num)
        (darkenFactor_le_one top y hy),
      u8clip_le_255 _, u8clip_le_255 _, u8clip_le_255 _⟩
  · simp only [specPixel]
    rw [if_neg hy, if_pos hm]
    simp only [clipPixel, scaleQ, toQ]
    exact ⟨chan_le_one _ _ (by norm_num), chan_le_one _ _ (by norm_num),
      chan_le_one _ _ (by norm_num),
      u8clip_le_255 _, u8clip_le_255 _, u8clip_le_255 _⟩
  · simp only [specPixel]
    rw [if_pos hy, if_neg hm]
    simp only [clipPixel, scaleQ, toQ]
    exact ⟨chan_le_one _ _ (darkenFactor_le_one top y hy),
      chan_le_one _ _ (darkenFactor_le_one top y hy),
      chan_le_one _ _ (darkenFactor_le_one top y hy),
      u8clip_le_255 _, u8clip_le_255 _, u8clip_le_255 _⟩
  · simp only [specPixel]
    rw [if_neg hy, if_neg hm]
    simp only [clipPixel, toQ]
    exact ⟨chan_le_id _, chan_le_id _, chan_le_id _,
      u8clip_le_255 _, u8clip_le_255 _, u8clip_le_255 _⟩

/-- The per-pixel function maps the black padding pixel to itself. -/
lemma specPixel_zero (top y : Nat) : specPixel top y (0, 0, 0) = (0, 0, 0) := by
  have hmask : brightMask (toQ (0, 0, 0)) = false := by
    simp [brightMask, pixelMean, toQ]
  by_cases hy : y < top <;>
    simp [specPixel, hmask, hy, scaleQ, clipPixel, toQ, u8clip]

/-- Each row of the reduce_glare output is the matching input row mapped
through the per-pixel function at its row index. -/
lemma reduce_glare_rowAt (img : Image) (y : Nat) :
    rowAt (reduce_glare img) y =
      (rowAt img y).map (specPixel (topPortion img.rows.length) y) := by
  unfold rowAt
  rw [reduce_glare_eq]
  show ((specRows (topPortion img.rows.length) 0 img.rows).get? y).getD [] = _
  rw [specRows_get?]
  cases h : img.rows.get? y <;> simp [h]

/-- reduce_glare preserves the length of every row. -/
lemma reduce_glare_rowAt_length (img : Image) (y : Nat) :
    (rowAt (reduce_glare img) y).length = (rowAt img y).length := by
  rw [reduce_glare_rowAt]; exact List.length_map _ _

/-- reduce_glare preserves the number of rows. -/
lemma reduce_glare_length (img : Image) :
    (reduce_glare img).rows.length = img.rows.length := by
  rw [reduce_glare_eq]
  exact specRows_length _ _ 0

/-- Every pixel of the reduce_glare output is the per-pixel function of the
matching input pixel (the black default commutes with the function). -/
lemma reduce_glare_pixAt (img : Image) (y x : Nat) :
    pixAt (reduce_glare img) y x =
      specPixel (topPortion img.rows.length) y (pixAt img y x) := by
  unfold pixAt
  rw [reduce_glare_rowAt]
  simp only [List.get?_eq_getElem?]
  cases h : (rowAt img y)[x]? with
  | some p => simp [List.getElem?_map, h]
  | none =>
      simp only [List.getElem?_map, h, Option.map_none', Option.getD_none]
      exact (specPixel_zero _ _).symm

/-- C5: a single application of reduce_glare never increases any channel
value, never produces a channel value outside [0, 255] (channel values are
naturals, so the lower bound holds by construction), and returns an image
with the same dimensions; the pixel type fixes the channel count at three. -/
theorem C5_reduce_glare_monotone (img : Image) (_hwf : WellFormedImage img) :
    (reduce_glare img).rows.length = img.rows.length ∧
    (∀ y, (rowAt (reduce_glare img) y).length = (rowAt img y).length) ∧
    (∀ y x,
      (pixAt (reduce_glare img) y x).1 ≤ (pixAt img y x).1 ∧
      (pixAt (reduce_glare img) y x).2.1 ≤ (pixAt img y x).2.1 ∧
      (pixAt (reduce_glare img) y x).2.2 ≤ (pixAt img y x).2.2 ∧
      (pixAt (reduce_glare img) y x).1 ≤ 255 ∧
      (pixAt (reduce_glare img) y x).2.1 ≤ 255 ∧
      (pixAt (reduce_glare img) y x).2.2 ≤ 255) := by
  refine ⟨reduce_glare_length img, reduce_glare_rowAt_length img, ?_⟩
  intro y x
  rw [reduce_glare_pixAt]
  exact specPixel_bounds _ _ _

/-- Concrete well-formed image for the C5 witness: a dark pixel, a glare
pixel, in two rows. -/
def imgW : Image := ⟨[[(10, 250, 30)], [(255, 255, 255)]]⟩

/-- C5 witness: the theorem applied to a concrete 8-bit image. -/
theorem C5_reduce_glare_monotone_witness :
    WellFormedImage imgW ∧
    (reduce_glare imgW).rows.length = imgW.rows.length ∧
    (pixAt (reduce_glare imgW) 1 0).1 ≤ (pixAt imgW 1 0).1 :=
  ⟨by decide, (C5_reduce_glare_monotone imgW (by decide)).1,
   ((C5_reduce_glare_monotone imgW (by decide)).2.2 1 0).1⟩

/-! ## Value-exact float model of reduce_glare

The code of lines 110-139 computes in IEEE-754 binary floating point, not in
exact real arithmetic: the numpy array is float32, the Python literals 0.7,
0.85 and 0.15 are float64 values, a scalar multiplying a float32 array is
first cast to float32 and the multiplication then rounds to the nearest
float32, and the row factor of line 133 is computed in float64 (constant
times y, divided by top_portion, plus the constant, each step rounding to
53 bits) before that cast.  The model below renders every such value as a
nonnegative dyadic m times 2 to the e and every rounding as round to
nearest, ties to even, at the significand width of the operation (24 bits
for float32, 53 for float64); all values of this pipeline lie in the normal
range of both formats, so neither subnormals nor overflow arise and this is
exactly the IEEE behaviour. -/

/-- Bit length helper with explicit fuel; the halving chain from n reaches
zero within n steps, so fuel n makes the function exact for every n. -/
def bitLenAux : Nat → Nat → Nat
  | 0, _ => 0
  | f + 1, n => if n = 0 then 0 else bitLenAux f (n / 2) + 1

/-- Number of binary digits of a natural number. -/
def bitLen (n : Nat) : Nat := bitLenAux n n

/-- A nonnegative binary floating-point value: the dyadic m times 2 to the
e.  Equality of representations is only used on fully evaluated pipeline
outputs, never as value equality. -/
structure Fp where
  /-- the integer significand -/
  m : Nat
  /-- the binary exponent -/
  e : Int
deriving DecidableEq, Repr

/-- Round-to-nearest, ties-to-even, of the nonnegative rational p / q to a
significand of prec bits.  The scaling shift is chosen so the integer
quotient carries at least prec plus two bits; the discarded division
remainder is the sticky information separating a true tie from a value just
above the midpoint. -/
def roundRat (prec : Nat) (p q : Nat) : Fp :=
  if p = 0 then ⟨0, 0⟩ else
  let sh : Int := ((prec + 2 + bitLen q : Nat) : Int) - (bitLen p : Int)
  let num := if 0 ≤ sh then p * 2 ^ sh.toNat else p
  let den := if 0 ≤ sh then q else q * 2 ^ (-sh).toNat
  let t := num / den
  let rem := num % den
  let d := bitLen t - prec
  let lo := t % 2 ^ d
  let hi := t / 2 ^ d
  let half := 2 ^ (d - 1)
  let m :=
    if lo < half then hi
    else if half < lo then hi + 1
    else if rem = 0 then (if hi % 2 = 0 then hi else hi + 1) else hi + 1
  ⟨m, (d : Int) - sh⟩

/-- Round a dyadic value to a significand of prec bits. -/
def roundFp (prec : Nat) (a : Fp) : Fp :=
  let r := roundRat prec a.m 1
  ⟨r.m, r.e + a.e⟩

/-- Floating-point multiplication: exact product, one rounding. -/
def fpMul (prec : Nat) (a b : Fp) : Fp :=
  roundFp prec ⟨a.m * b.m, a.e + b.e⟩

/-- Floating-point division: one rounding of the exact quotient. -/
def fpDiv (prec : Nat) (a b : Fp) : Fp :=
  let r := roundRat prec a.m b.m
  ⟨r.m, r.e + a.e - b.e⟩

/-- Floating-point addition: exact aligned sum, one rounding. -/
def fpAdd (prec : Nat) (a b : Fp) : Fp :=
  if a.e ≤ b.e then roundFp prec ⟨a.m + b.m * 2 ^ (b.e - a.e).toNat, a.e⟩
  else roundFp prec ⟨b.m + a.m * 2 ^ (a.e - b.e).toNat, b.e⟩

/-- Strict comparison of a dyadic value with a natural number. -/
def fpGtNat (a : Fp) (n : Nat) : Bool :=
  if 0 ≤ a.e then n < a.m * 2 ^ a.e.toNat else n * 2 ^ (-a.e).toNat < a.m

/-- Floor of a nonnegative dyadic value. -/
def fpFloor (a : Fp) : Nat :=
  if 0 ≤ a.e then a.m * 2 ^ a.e.toNat else a.m / 2 ^ (-a.e).toNat

/-- np.clip to [0, 255] followed by astype(np.uint8) on a nonnegative
float32 value: values above 255 clamp to 255, the rest truncate. -/
def u8ofFp (a : Fp) : Nat := if fpGtNat a 255 then 255 else fpFloor a

/-- The float64 value of the Python literal 0.7 of line 121. -/
def c07_64 : Fp := roundRat 53 7 10

/-- The float32 cast of 0.7 that numpy multiplies the array by. -/
def c07_32 : Fp := roundFp 24 c07_64

/-- The float64 value of the Python literal 0.85 of line 133. -/
def c085_64 : Fp := roundRat 53 17 20

/-- The float64 value of the Python literal 0.15 of line 133. -/
def c015_64 : Fp := roundRat 53 3 20

/-- A pixel during the float passes: three float32 channel values. -/
abbrev FPixel := Fp × Fp × Fp

/-- Conversion of a stored 8-bit pixel to float32, exact. -/
def toF (p : Pixel) : FPixel := (⟨p.1, 0⟩, ⟨p.2.1, 0⟩, ⟨p.2.2, 0⟩)

/-- np.mean over the three channels in float32: pairwise sum, then divide
by three, each step rounding to 24 bits (exact for the integer channel
values the mask pass sees). -/
def fpMean32 (q : FPixel) : Fp :=
  fpDiv 24 (fpAdd 24 (fpAdd 24 q.1 q.2.1) q.2.2) ⟨3, 0⟩

/-- The glare mask of line 118 on float32 values. -/
def brightMask32 (q : FPixel) : Bool := fpGtNat (fpMean32 q) 220

/-- Multiply every channel by a float32 factor, each product rounding to
float32 (the numpy broadcasts of lines 123 and 134). -/
def scaleF (f : Fp) (q : FPixel) : FPixel :=
  (fpMul 24 q.1 f, fpMul 24 q.2.1 f, fpMul 24 q.2.2 f)

/-- The glare pass of lines 122-125 on float32 values. -/
def glarePass32 (mask : Bool) (q : FPixel) : FPixel :=
  if mask then scaleF c07_32 q else q

/-- The row darkening factor of line 133 as the code computes it: 0.15
times y, divided by top_portion, plus 0.85, all in float64, then cast to
float32 for the in-place float32 multiply of line 134. -/
def darkenFactor32 (top y : Nat) : Fp :=
  let t1 := fpMul 53 c015_64 (roundFp 53 ⟨y, 0⟩)
  let t2 := fpDiv 53 t1 (roundFp 53 ⟨top, 0⟩)
  roundFp 24 (fpAdd 53 c085_64 t2)

/-- Clamp and truncate all three float32 channels, line 137. -/
def clipPixel32 (q : FPixel) : Pixel := (u8ofFp q.1, u8ofFp q.2.1, u8ofFp q.2.2)

/-- The gradient loop of lines 131-134 on float32 rows. -/
def gradLoop32 (top : Nat) : Nat → List (List FPixel) → List (List FPixel)
  | _, [] => []
  | y, row :: rest =>
      (if y < top then row.map (scaleF (darkenFactor32 top y)) else row) ::
        gradLoop32 top (y + 1) rest

/-- reduce_glare (lines 110-139) with the float arithmetic the code
performs: convert to float32, apply the glare pass with the mask computed
from the original values, apply the gradient darkening to the top rows,
then clamp and truncate every channel. -/
def reduce_glare32 (img : Image) : Image :=
  let arr := img.rows.map (fun row => row.map toF)
  let arr1 := arr.map (fun row => row.map (fun q => glarePass32 (brightMask32 q) q))
  let h := arr.length
  let arr2 := gradLoop32 (topPortion h) 0 arr1
  ⟨arr2.map (fun row => row.map clipPixel32)⟩

/-- The amended per-pixel function of C4: the claimed glare, gradient and
clamp-truncate stages with every multiplication rounding to float32 and the
row factor computed in float64 then cast, exactly as the code does. -/
def specPixel32 (top y : Nat) (p : Pixel) : Pixel :=
  let q := toF p
  let q1 := if brightMask32 q then scaleF c07_32 q else q
  let q2 := if y < top then scaleF (darkenFactor32 top y) q1 else q1
  clipPixel32 q2

/-- The whole image under the amended per-pixel function, rows indexed from
the given starting row index. -/
def specRows32 (top : Nat) : Nat → List (List Pixel) → List (List Pixel)
  | _, [] => []
  | y, row :: rest => row.map (specPixel32 top y) :: specRows32 top (y + 1) rest

/-- One row of the fused float32 passes equals the row of per-pixel
results. -/
lemma row_fusion32 (top y : Nat) (row : List Pixel) :
    ((if y < top
        then ((row.map toF).map (fun q => glarePass32 (brightMask32 q) q)).map
          (fun q => scaleF (darkenFactor32 top y) q)
        else (row.map toF).map (fun q => glarePass32 (brightMask32 q) q)).map clipPixel32)
      = row.map (specPixel32 top y) := by
  by_cases hy : y < top
  · rw [if_pos hy]
    simp only [List.map_map]
    apply List.map_congr_left
    intro p _
    simp [Function.comp, specPixel32, glarePass32, hy]
  · rw [if_neg hy]
    simp only [List.map_map]
    apply List.map_congr_left
    intro p _
    simp [Function.comp, specPixel32, glarePass32, hy]

/-- Fusion of the staged float32 passes into one map of the per-pixel
function, for an arbitrary starting row index. -/
lemma gradLoop32_spec (top : Nat) (rows : List (List Pixel)) : ∀ y : Nat,
    (gradLoop32 top y
        ((rows.map (fun row => row.map toF)).map
          (fun row => row.map (fun q => glarePass32 (brightMask32 q) q)))).map
      (fun row => row.map clipPixel32) = specRows32 top y rows := by
  induction rows with
  | nil => intro y; rfl
  | cons row rest ih =>
      intro y
      simp only [List.map_cons, gradLoop32, specRows32]
      exact congrArg₂ List.cons (row_fusion32 top y row) (ih (y + 1))

/-- C4 amended: reduce_glare computes exactly the per-pixel function whose
stages are the claimed ones (glare mask from the original channel mean
above 220 scaling by 0.7, then the row gradient 0.85 + 0.15 * y / topBand
for rows y below int(0.4 * height), then clamp to [0, 255] and truncation)
with the arithmetic the code performs: the constants as float values, every
multiplication rounded to float32 and the row factor computed in float64
then cast to float32. -/
theorem C4_reduce_glare_float32_per_pixel (img : Image) :
    reduce_glare32 img = ⟨specRows32 (topPortion img.rows.length) 0 img.rows⟩ := by
  unfold reduce_glare32
  simp only [List.length_map]
  exact congrArg Image.mk (gradLoop32_spec (topPortion img.rows.length) img.rows 0)

/-- Concrete image for the C4 counterexample: 1043 rows of one channel-139
pixel each; the top band is int(1043 * 0.4) = 417 rows and the exact row-37
factor is 120 / 139. -/
def bigImg : Image := ⟨List.replicate 1043 [(139, 139, 139)]⟩

set_option maxRecDepth 8000 in
/-- C4 counterexample: at height 1043, row 37, channel value 139 the code
(float32 arithmetic, modelled value-exactly by reduce_glare32) produces
channel 119, while the per-pixel function of the claim in exact real
arithmetic (specPixel, the function the claim words describe) produces 120:
the float32 product 139 times the cast factor is just below 120 and the
uint8 truncation drops it.  Hence reduce_glare does not compute exactly the
claimed per-pixel function. -/
theorem C4_counterexample_float32_truncation :
    pixAt (reduce_glare32 bigImg) 37 0 = (119, 119, 119) ∧
    specPixel (topPortion bigImg.rows.length) 37 (139, 139, 139) = (120, 120, 120) ∧
    reduce_glare32 bigImg ≠ ⟨specRows (topPortion bigImg.rows.length) 0 bigImg.rows⟩ := by
  have hlen : bigImg.rows.length = 1043 := by
    show (List.replicate 1043 _).length = 1043
    rw [List.length_replicate]
  have htop : topPortion bigImg.rows.length = 417 := by
    rw [hlen]
    decide
  have h1 : pixAt (reduce_glare32 bigImg) 37 0 = (119, 119, 119) := by decide
  have hmask : brightMask (toQ (139, 139, 139)) = false := by
    simp only [brightMask, pixelMean, toQ]
    rw [decide_eq_false_iff_not]
    norm_num
  have hch : (((139, 139, 139) : Pixel).1 : ℚ) * darkenFactor 417 37 = ((120 : Nat) : ℚ) := by
    unfold darkenFactor
    norm_num
  have hclip : u8clip ((((139, 139, 139) : Pixel).1 : ℚ) * darkenFactor 417 37) = 120 := by
    rw [hch, u8clip_natCast 120 (by norm_num)]
  have h2 : specPixel (topPortion bigImg.rows.length) 37 (139, 139, 139) = (120, 120, 120) := by
    rw [htop]
    simp only [specPixel]
    rw [if_pos (show (37 : Nat) < 417 by norm_num), hmask]
    simp only [Bool.false_eq_true, if_false, ite_false]
    simp only [clipPixel, scaleQ, toQ, Prod.mk.injEq]
    exact ⟨hclip, hclip, hclip⟩
  refine ⟨h1, h2, ?_⟩
  intro hcontra
  have hrhs : pixAt (⟨specRows (topPortion bigImg.rows.length) 0 bigImg.rows⟩ : Image) 37 0
      = (120, 120, 120) := by
    show (((specRows (topPortion bigImg.rows.length) 0 bigImg.rows).get? 37).getD
        [] |>.get? 0).getD (0, 0, 0) = (120, 120, 120)
    rw [specRows_get?]
    have hget : bigImg.rows.get? 37 = some [(139, 139, 139)] := by decide
    rw [hget]
    simpa using h2
  have h3 : pixAt (reduce_glare32 bigImg) 37 0
      = pixAt (⟨specRows (topPortion bigImg.rows.length) 0 bigImg.rows⟩ : Image) 37 0 := by
    rw [hcontra]
  rw [h1, hrhs] at h3
  exact absurd h3 (by decide)

/-! ## The image transform (check_oil_level.py, process_image, lines 142-192)

The embedding covers the slice of process_image that the settled claims are
decided by: an already-decoded RGB input, the optional horizontal flip, the
crop stage and the optional glare reduction, with rotate_degrees = 0 (so the
rotation of line 165 is skipped and the post-rotation image is the input)
and enhance = False.  The arbitrary-angle rotation with canvas expansion,
the ImageEnhance chain and the quality-95 JPEG encoding are floating-point
raster operations and are outside this rational embedding; none of them can
turn a crop failure into a success or invent a crop error, since the crop
stage runs before them and its exception aborts the function.

Crop semantics follow the Pillow source of Image.crop, which the code calls
on line 169 without any validation of its own: a box whose right is strictly
less than its left, or whose lower is strictly less than its upper, raises
ValueError; any other box is extracted with areas outside the image filled
with zero (black), silently. -/

/-- A crop box in PIL order: left, upper, right, lower. -/
structure CropBox where
  left : Int
  upper : Int
  right : Int
  lower : Int
deriving DecidableEq, Repr

/-- Pixel lookup with signed coordinates: black outside the image, as the
Pillow crop fills out-of-bounds areas. -/
def getPixelInt (img : Image) (y x : Int) : Pixel :=
  if y < 0 ∨ x < 0 then (0, 0, 0) else pixAt img y.toNat x.toNat

/-- The Pillow Image.crop primitive: validate only the box orientation, then
extract the requested rectangle, zero-filling outside the source image. -/
def PIL_crop (img : Image) (b : CropBox) : Except String Image :=
  if b.right < b.left then .error "Coordinate right is less than left"
  else if b.lower < b.upper then .error "Coordinate lower is less than upper"
  else .ok ⟨(List.range (b.lower - b.upper).toNat).map (fun (dy : Nat) =>
    (List.range (b.right - b.left).toNat).map (fun (dx : Nat) =>
      getPixelInt img (b.upper + (dy : Int)) (b.left + (dx : Int))))⟩

/-- The horizontal mirror of line 161, transpose(FLIP_LEFT_RIGHT). -/
def flipH (img : Image) : Image := ⟨img.rows.map List.reverse⟩

/-- process_image on the modelled slice: optional flip, then the crop stage
when a box is given, then optional glare reduction; a crop error aborts. -/
def process_image (img : Image) (flip_horizontal : Bool)
    (crop_box : Option CropBox) (reduce_glare_enabled : Bool) :
    Except String Image :=
  let img1 := if flip_horizontal then flipH img else img
  let cropped : Except String Image :=
    match crop_box with
    | none => .ok img1
    | some b => PIL_crop img1 b
  cropped.map (fun img2 => if reduce_glare_enabled then reduce_glare img2 else img2)

/-- Concrete one-by-one input image for the crop claims. -/
def tinyImg : Image := ⟨[[(100, 100, 100)]]⟩

/-- A crop box that exceeds the bounds of tinyImg on the right and bottom. -/
def oobBox : CropBox := ⟨0, 0, 3, 3⟩

/-- A crop box whose right is strictly less than its left. -/
def badBox : CropBox := ⟨5, 0, 2, 3⟩

/-- C3 counterexample: a crop region that lies outside the bounds of the
(unrotated) input image does not make the transform fail; the transform
succeeds and returns a silently zero-padded 3 by 3 image, contradicting the
claim that any out-of-bounds coordinate fails with InvalidCrop and produces
no output. -/
theorem C3_counterexample_oob_crop_succeeds :
    process_image tinyImg false (some oobBox) false =
      Except.ok ⟨[[(100, 100, 100), (0, 0, 0), (0, 0, 0)],
                  [(0, 0, 0), (0, 0, 0), (0, 0, 0)],
                  [(0, 0, 0), (0, 0, 0), (0, 0, 0)]]⟩ ∧
    tinyImg.rows.length = 1 ∧ ((1 : Int) < oobBox.right) := by
  exact ⟨rfl, rfl, by decide⟩

/-- C3 amended: a crop whose right is strictly less than its left, or whose
bottom is strictly less than its top, makes the transform fail with the
ValueError of the crop primitive; but coordinates outside the bounds of the
image are not an error: with left at most right and top at most bottom the
transform always succeeds and returns an image of exactly the requested
size, out-of-bounds areas silently filled with black. -/
theorem C3_crop_validation (img : Image) (flip rg : Bool) (b : CropBox) :
    (b.right < b.left →
      process_image img flip (some b) rg =
        .error "Coordinate right is less than left") ∧
    (b.left ≤ b.right → b.lower < b.upper →
      process_image img flip (some b) rg =
        .error "Coordinate lower is less than upper") ∧
    (b.left ≤ b.right → b.upper ≤ b.lower →
      ∃ out, process_image img flip (some b) rg = .ok out ∧
        out.rows.length = (b.lower - b.upper).toNat ∧
        ∀ i, i < out.rows.length →
          (rowAt out i).length = (b.right - b.left).toNat) := by
  refine ⟨fun h => ?_, fun h1 h2 => ?_, fun h1 h2 => ?_⟩
  · simp [process_image, PIL_crop, h, Except.map]
  · have hnl : ¬ (b.right < b.left) := not_lt.mpr h1
    simp [process_image, PIL_crop, hnl, h2, Except.map]
  · have hnl : ¬ (b.right < b.left) := not_lt.mpr h1
    have hnl2 : ¬ (b.lower < b.upper) := not_lt.mpr h2
    set base := if flip then flipH img else img with hbase
    have hlen : ∀ (c : Image), c.rows =
        (List.range (b.lower - b.upper).toNat).map (fun (dy : Nat) =>
          (List.range (b.right - b.left).toNat).map (fun (dx : Nat) =>
            getPixelInt base (b.upper + (dy : Int)) (b.left + (dx : Int)))) →
        c.rows.length = (b.lower - b.upper).toNat ∧
        ∀ i, i < c.rows.length → (rowAt c i).length = (b.right - b.left).toNat := by
      intro c hc
      constructor
      · rw [hc]; simp
      · intro i hi
        rw [hc] at hi
        simp only [List.length_map, List.length_range] at hi
        unfold rowAt
        rw [hc]
        rw [List.get?_eq_getElem?]
        simp [List.getElem?_map, List.getElem?_range, hi]
    by_cases hrg : rg
    · refine ⟨reduce_glare ⟨(List.range (b.lower - b.upper).toNat).map (fun (dy : Nat) =>
        (List.range (b.right - b.left).toNat).map (fun (dx : Nat) =>
          getPixelInt base (b.upper + (dy : Int)) (b.left + (dx : Int))))⟩, ?_, ?_, ?_⟩
      · simp [process_image, PIL_crop, hnl, hnl2, Except.map, hrg, hbase]
      · rw [reduce_glare_length]
        exact (hlen _ rfl).1
      · intro i hi
        rw [reduce_glare_length] at hi
        rw [reduce_glare_rowAt_length]
        exact (hlen _ rfl).2 i hi
    · refine ⟨⟨(List.range (b.lower - b.upper).toNat).map (fun (dy : Nat) =>
        (List.range (b.right - b.left).toNat).map (fun (dx : Nat) =>
          getPixelInt base (b.upper + (dy : Int)) (b.left + (dx : Int))))⟩, ?_, ?_, ?_⟩
      · simp [process_image, PIL_crop, hnl, hnl2, Except.map, hrg, hbase]
      · exact (hlen _ rfl).1
      · exact (hlen _ rfl).2

/-- C3 witness: the amended theorem applied to the concrete boxes, both the
out-of-bounds success and the inverted-box failure. -/
theorem C3_crop_validation_witness :
    (oobBox.left ≤ oobBox.right ∧ oobBox.upper ≤ oobBox.lower ∧
      ∃ out, process_image tinyImg false (some oobBox) true = .ok out ∧
        out.rows.length = (oobBox.lower - oobBox.upper).toNat ∧
        ∀ i, i < out.rows.length →
          (rowAt out i).length = (oobBox.right - oobBox.left).toNat) ∧
    (badBox.right < badBox.left ∧
      process_image tinyImg false (some badBox) false =
        .error "Coordinate right is less than left") :=
  ⟨⟨by decide, by decide,
    (C3_crop_validation tinyImg false true oobBox).2.2 (by decide) (by decide)⟩,
   ⟨by decide, (C3_crop_validation tinyImg false false badBox).1 (by decide)⟩⟩

/-! ## Logging and notification (log_reading, lines 215-228; main, lines 531-549)

The CSV log is modelled as the list of rows a call appends, each row a list
of field strings; the csv writer stringifies the integer percentage.  The
post-parse tail of main is modelled as the pure description of its effects:
which rows are appended to the log and which email variant, if any, is
handed to send_alert_email. -/

/-- The replace of every newline by a space applied to the raw result field,
line 227. -/
def flattenNewlines (s : String) : String :=
  ⟨s.data.map (fun c => if c = '\n' then ' ' else c)⟩

/-- The header row written when the CSV file does not exist yet, line 225. -/
def logHeader : List String := ["Timestamp", "Percentage", "Snapshot", "Raw Result"]

/-- log_reading (lines 215-228) as the list of rows the call appends to the
CSV file: the header first when the file does not exist yet, then exactly
one reading row of timestamp, percentage, snapshot path and the flattened
raw result. -/
def log_reading (percentage : Int) (raw_result snapshot_path timestamp : String)
    (file_exists : Bool) : List (List String) :=
  (if !file_exists then [logHeader] else []) ++
    [[timestamp, toString percentage, snapshot_path, flattenNewlines raw_result]]

/-- The two variants of send_alert_email (lines 233-252): the warning styled
message of the is_warning branch and the normal OK report. -/
inductive EmailKind where
  /-- the low-oil warning variant -/
  | warning
  /-- the normal OK status variant -/
  | ok
deriving DecidableEq, Repr

/-- Observable effects of one run past the parse stage. -/
structure RunEffects where
  /-- rows appended to the CSV log during the run -/
  loggedRows : List (List String)
  /-- the email variant sent, or none when no email is attempted -/
  emailSent : Option EmailKind
  /-- the image path handed to send_alert_email, or none when no email -/
  emailImagePath : Option String
deriving DecidableEq, Repr

/-- The alert threshold of line 35, hard-coded to 25 in the source. -/
def ALERT_THRESHOLD : Int := 25

/-- The tail of main after the parse stage (lines 531-549): when a
percentage was parsed, log_reading runs and an email is always sent, the
warning variant exactly when the percentage is at most the threshold (the
is_warning flag of line 538); when no percentage was parsed, both the log
and the email are skipped and the run only prints a notice.  The path
wiring of the source is preserved: line 535 hands log_reading the SNAPSHOT
path (str(snapshot_filename), the raw frame saved on line 515), while line
547 hands send_alert_email the processed-image path returned by the
analysis.  The function is total: this code path raises nothing. -/
def main_after_parse (percentage : Option Int)
    (raw_result snapshot_path processed_path timestamp : String)
    (log_file_exists : Bool) : RunEffects :=
  match percentage with
  | some p =>
      { loggedRows := log_reading p raw_result snapshot_path timestamp log_file_exists,
        emailSent := some (if p ≤ ALERT_THRESHOLD then .warning else .ok),
        emailImagePath := some processed_path }
  | none => { loggedRows := [], emailSent := none, emailImagePath := none }

/-- C6: in every run that reaches the parse stage, a parsed percentage leads
to a log append and always to a status email, the warning variant exactly
when the percentage is at most the threshold 25, the OK variant otherwise,
with the processed image attached to the email; an absent percentage skips
both, and the run completes (the effect function is total, no unhandled
error). -/
theorem C6_parse_stage_effects (po : Option Int) (raw sp pp ts : String) (ex : Bool) :
    ALERT_THRESHOLD = 25 ∧
    (∀ p, po = some p →
      main_after_parse po raw sp pp ts ex =
        ⟨log_reading p raw sp ts ex,
         some (if p ≤ ALERT_THRESHOLD then .warning else .ok),
         some pp⟩ ∧
      (main_after_parse po raw sp pp ts ex).loggedRows ≠ []) ∧
    (po = none → main_after_parse po raw sp pp ts ex = ⟨[], none, none⟩) := by
  refine ⟨rfl, ?_, ?_⟩
  · rintro p rfl
    exact ⟨rfl, by simp [main_after_parse, log_reading]⟩
  · rintro rfl
    rfl

/-- C6 witness: the theorem applied to a parsed percentage of 18 (below the
threshold, hence the warning variant) and to an absent percentage. -/
theorem C6_parse_stage_effects_witness :
    main_after_parse (some 18) "Percentage: 18%" "snap.jpg" "proc.jpg"
        "2025-01-01 00:00:00" false =
      ⟨log_reading 18 "Percentage: 18%" "snap.jpg" "2025-01-01 00:00:00" false,
       some EmailKind.warning, some "proc.jpg"⟩ ∧
    main_after_parse none "raw text" "snap.jpg" "proc.jpg"
        "2025-01-01 00:00:00" false = ⟨[], none, none⟩ :=
  ⟨by simpa using
      ((C6_parse_stage_effects (some 18) "Percentage: 18%" "snap.jpg" "proc.jpg"
          "2025-01-01 00:00:00" false).2.1 18 rfl).1,
   (C6_parse_stage_effects none "raw text" "snap.jpg" "proc.jpg"
      "2025-01-01 00:00:00" false).2.2 rfl⟩

/-- C8 counterexample: two parts of the claim fail on the code at concrete
inputs.  The header row the code writes on first creation spells its last
field Raw Result with a space, not RawResult as the claim states; and the
path field of the appended row is the snapshot path main passes on line
535, which differs from the processed-image path the claim promises. -/
theorem C8_counterexample_header_and_path :
    (log_reading 18 "a" "snap.jpg" "t" false).head? =
      some ["Timestamp", "Percentage", "Snapshot", "Raw Result"] ∧
    (["Timestamp", "Percentage", "Snapshot", "Raw Result"] : List String) ≠
      ["Timestamp", "Percentage", "Snapshot", "RawResult"] ∧
    (main_after_parse (some 18) "a" "snap.jpg" "proc.jpg" "t" true).loggedRows =
      [["t", "18", "snap.jpg", "a"]] ∧
    ("snap.jpg" : String) ≠ "proc.jpg" :=
  ⟨rfl, by decide, by decide, by decide⟩

/-- C8 amended: the log is created with the fixed header row Timestamp,
Percentage, Snapshot, Raw Result on first write only; each reading with a
parsed percentage appends exactly one row of timestamp, percentage, the
path of the raw snapshot image (main passes the snapshot path to
log_reading; the processed-image path goes only to the email) and the raw
response text with every embedded newline replaced by a single space, so
the appended text contains no newline. -/
theorem C8_log_append (p : Int) (raw sp pp ts : String) (ex : Bool) :
    log_reading p raw sp ts false =
      [logHeader, [ts, toString p, sp, flattenNewlines raw]] ∧
    log_reading p raw sp ts true =
      [[ts, toString p, sp, flattenNewlines raw]] ∧
    logHeader = ["Timestamp", "Percentage", "Snapshot", "Raw Result"] ∧
    (main_after_parse (some p) raw sp pp ts ex).loggedRows =
      log_reading p raw sp ts ex ∧
    '\n' ∉ (flattenNewlines raw).data := by
  refine ⟨rfl, rfl, rfl, rfl, ?_⟩
  intro hmem
  simp only [flattenNewlines] at hmem
  obtain ⟨a, -, hEq⟩ := List.mem_map.mp hmem
  by_cases ha : a = '\n'
  · rw [if_pos ha] at hEq
    exact absurd hEq (by decide)
  · rw [if_neg ha] at hEq
    exact ha hEq

/-- C8 witness: the amended theorem applied to a raw text with an embedded
newline and to distinct snapshot and processed paths. -/
theorem C8_log_append_witness :
    log_reading 18 "a\nb" "snap.jpg" "t" false =
      [logHeader, ["t", toString (18 : Int), "snap.jpg", flattenNewlines "a\nb"]] ∧
    (main_after_parse (some 18) "a\nb" "snap.jpg" "proc.jpg" "t" true).loggedRows =
      log_reading 18 "a\nb" "snap.jpg" "t" true ∧
    '\n' ∉ (flattenNewlines "a\nb").data :=
  ⟨(C8_log_append 18 "a\nb" "snap.jpg" "proc.jpg" "t" true).1,
   (C8_log_append 18 "a\nb" "snap.jpg" "proc.jpg" "t" true).2.2.2.1,
   (C8_log_append 18 "a\nb" "snap.jpg" "proc.jpg" "t" true).2.2.2.2⟩

end OilNotifier
